import Mathlib

/-!
Verification of the wybe stochastic route planner.

Shallow embedding of the core modules `delay.py`, `timedistance.py`,
`route.py` and `routing.py` of the wybe repository.

Modelling conventions:
* Python `float` times and probabilities are modelled as `Rat`; the only
  floating-point value with special behaviour that the code relies on is
  `inf` (the cost of an uninitialised label), which is modelled explicitly
  by `Option Rat` with `none` standing for `inf`.
* `scipy.stats.gamma(*params).cdf` is an external library call; it is
  modelled as an explicit function parameter `cdf : Cdf` threaded through
  every definition that (transitively) calls it.  Nothing about its values
  is assumed except where a theorem states a hypothesis.
* Python trip identifiers are either strings (real GTFS trips) or the
  reserved integers `-1` (`FOOT_TRIP_ID`) and `-2` (`INIT_TRIP_ID`), which
  compare unequal to every string; the sum type `TripId` captures this.
* Python exceptions (failed `assert`, unbound local variable, missing dict
  key, index error, `networkx` errors) are modelled by `Except PyError`.
  `PyError.fuelExhausted` is not a Python error: the `while` loops of
  `routing.py` are modelled with an explicit fuel parameter, and running
  out of fuel is reported as this distinguished error so that no theorem
  can mistake a truncated run for a completed one.
* The dict `INIT_PROPS` of `timedistance.py` has no `travel_time` key; the
  program never reads that key from it, so the total record here sets the
  field to `0`.
-/

namespace Wybe

/-- Stop identifiers (`ID = str` in `utils.py`). -/
abbrev ID := String

/-- Parameters `(shape, loc, scale)` of a Gamma distribution, as stored in
the `gamma` edge attribute (a numpy array in the source). -/
structure GammaParams where
  shape : Rat
  loc : Rat
  scale : Rat
deriving DecidableEq, Repr

/-- The external `scipy.stats.gamma(*params).cdf` call, as an abstract
function parameter. -/
abbrev Cdf := GammaParams → Rat → Rat

/-- Trip identifiers: real trips are strings; `FOOT_TRIP_ID = -1` and
`INIT_TRIP_ID = -2` in `utils.py` are integers, hence unequal to every
string and to each other. -/
inductive TripId where
  | real : String → TripId
  | foot : TripId
  | init : TripId
deriving DecidableEq, Repr

/-- `FOOT_TRIP_ID` from `utils.py`. -/
def FOOT_TRIP_ID : TripId := TripId.foot

/-- `INIT_TRIP_ID` from `utils.py`. -/
def INIT_TRIP_ID : TripId := TripId.init

/-- `INIT_TTYPE` from `utils.py`. -/
def INIT_TTYPE : String := "Init"

/-- Edge attribute record (`EdgeProps = Dict[str, Any]` in `utils.py`,
with the attributes set by `Utils.create_graph`). -/
structure EdgeProps where
  ttype : String
  trip_id : TripId
  dep_time : Rat
  arr_time : Rat
  travel_time : Rat
  gamma : Option GammaParams
deriving DecidableEq, Repr

/-- Python errors that the modelled code can raise, plus the model-only
`fuelExhausted` marker for truncated `while` loops. -/
inductive PyError where
  | assertionError
  | unboundLocalError
  | keyError
  | indexError
  | networkxError
  | fuelExhausted
deriving DecidableEq, Repr

/-- The `EXTRA_TRANSFER_TIME` table of `delay.py`, as a partial map so
that a missing key is observable (Python raises `KeyError`). -/
def EXTRA_TRANSFER_TIME : String → Option Rat := fun t =>
  if t = "Bus" then some 20
  else if t = "Foot" then some 20
  else if t = "Tram" then some 30
  else if t = "S-Bahn" then some 100
  else if t = "Extrazug" then some 100
  else if t = "InterRegio" then some 120
  else if t = "Eurocity" then some 120
  else if t = "RegioExpress" then some 120
  else if t = "ICE" then some 120
  else if t = "Eurostar" then some 120
  else if t = "Intercity" then some 120
  else none

/-- `Delay.__compute_delay` of `delay.py`.  `none` models the `KeyError`
raised by the unguarded `EXTRA_TRANSFER_TIME[ttype]` lookup. -/
def compute_delay (arrival_time next_departure_time : Rat) (ttype : String)
    (previous_route_id next_route_id : TripId) : Option Rat :=
  let time_to_make_connection := next_departure_time - arrival_time
  if previous_route_id ≠ next_route_id then
    match EXTRA_TRANSFER_TIME ttype with
    | some extra => some (time_to_make_connection - extra)
    | none => none
  else
    some time_to_make_connection

/-- `Delay.__connection_probability` of `delay.py` (the wrapper around the
Gamma CDF). -/
def connection_probability_wrapper (cdf : Cdf) (delay : Rat)
    (gamma_params : Option GammaParams) (ttype : String)
    (previous_route_id next_route_id : TripId) : Rat :=
  if ttype = "Foot" ∨ previous_route_id = next_route_id ∨ gamma_params = none then
    1
  else
    match gamma_params with
    | some params => cdf params delay
    | none => 1

/-- `Delay.connection_probability` of `delay.py`.  Note the argument
routing of the source: the delay is computed with `prev_props.ttype`
while the wrapper receives `curr_props.ttype`, and the Gamma parameters
come from `prev_props.gamma`. -/
def connection_probability (cdf : Cdf) (prev_props curr_props : EdgeProps) :
    Option Rat :=
  match compute_delay prev_props.arr_time curr_props.dep_time prev_props.ttype
      prev_props.trip_id curr_props.trip_id with
  | none => none
  | some d =>
    some (connection_probability_wrapper cdf d prev_props.gamma curr_props.ttype
      prev_props.trip_id curr_props.trip_id)

/-- The `INIT_PROPS` sentinel record built by `TimeDistance.__init__`. -/
def INIT_PROPS (time : Rat) : EdgeProps :=
  { gamma := none
    arr_time := time
    dep_time := time
    travel_time := 0
    ttype := INIT_TTYPE
    trip_id := INIT_TRIP_ID }

/-- The `TimeDistance` label of `timedistance.py`. -/
structure TimeDistance where
  first : Bool
  cum_time : Rat
  prev_props : EdgeProps
deriving DecidableEq, Repr

/-- `TimeDistance(time=t)`: the constructor path taken when no
`prev_props` is supplied. -/
def TimeDistance.initial (time : Rat) : TimeDistance :=
  { first := true, cum_time := 0, prev_props := INIT_PROPS time }

/-- `TimeDistance.updated`. -/
def TimeDistance.updated (d : TimeDistance) : TimeDistance :=
  { d with first := false }

/-- `TimeDistance.__call__`: `inf` (modelled as `none`) while `first`,
otherwise the cumulative time. -/
def TimeDistance.call (d : TimeDistance) : Option Rat :=
  if d.first then none else some d.cum_time

/-- `TimeDistance.__lt__`, with the float comparisons against `inf`
spelled out (`inf < x` is false, `x < inf` is true for finite `x`). -/
def TimeDistance.lt (a b : TimeDistance) : Bool :=
  match a.call, b.call with
  | none, _ => false
  | some _, none => true
  | some x, some y => decide (x < y)

/-- The foot-edge time rewrite at the start of `TimeDistance.__add__`:
`props = props.copy()` followed by the two item assignments.  Factored
out so that theorems can name the possibly rewritten record. -/
def footRewrite (self : TimeDistance) (props : EdgeProps) : EdgeProps :=
  if props.ttype = "Foot" then
    { props with
        dep_time := self.prev_props.dep_time - props.travel_time
        arr_time := self.prev_props.dep_time }
  else props

/-- `TimeDistance.__add__` of `timedistance.py`. -/
def TimeDistance.add (self : TimeDistance) (props0 : EdgeProps) : TimeDistance :=
  let props := footRewrite self props0
  { first := self.first
    cum_time := self.cum_time + self.prev_props.dep_time - props.arr_time
      + props.travel_time
    prev_props := props }

/-- `TimeDistance.previous_dep_time`. -/
def TimeDistance.previous_dep_time (d : TimeDistance) : Rat :=
  d.prev_props.dep_time

/-- The `Route` value of `route.py`.  The graph member is only used by the
presentation methods (`to_Pandas`, `__str__`), which are out of scope, so
it is not carried here. -/
structure Route where
  connections : List ID
  distances : List TimeDistance
deriving DecidableEq, Repr

/-- The iteration sequence of `enumerate(zip(connections, connections[1:]))`
starting at index `i`. -/
def enumPairsAux : Nat → List ID → List (Nat × ID × ID)
  | _, [] => []
  | _, [_] => []
  | i, x :: y :: t => (i, x, y) :: enumPairsAux (i + 1) (y :: t)

/-- `enumerate(zip(connections, connections[1:]))` as used by
`Route.success_proba`. -/
def enumPairs (l : List ID) : List (Nat × ID × ID) :=
  enumPairsAux 0 l

/-- The loop body of `Route.success_proba`: `proba` and `least_proba` are
the running accumulators and `least_proba_edge` is `none` while the Python
local variable is still unassigned (so that falling off the loop with it
unassigned reports the `UnboundLocalError` the source would raise). -/
def successAux (cdf : Cdf) (dists : List TimeDistance) :
    List (Nat × ID × ID) → Rat → Rat → Option (ID × ID × EdgeProps) →
    Except PyError (Rat × (ID × ID × EdgeProps))
  | [], proba, _, least_proba_edge =>
    match least_proba_edge with
    | none => Except.error PyError.unboundLocalError
    | some e => Except.ok (proba, e)
  | (i, dep_stop, arr_stop) :: rest, proba, least_proba, least_proba_edge =>
    match dists.get? i, dists.get? (i + 1) with
    | some di, some dj =>
      match connection_probability cdf di.prev_props dj.prev_props with
      | none => Except.error PyError.keyError
      | some next_proba =>
        if next_proba ≤ least_proba then
          successAux cdf dists rest (proba * next_proba) next_proba
            (some (arr_stop, dep_stop, di.prev_props))
        else
          successAux cdf dists rest (proba * next_proba) least_proba
            least_proba_edge
    | _, _ => Except.error PyError.indexError

/-- `Route.success_proba` of `route.py`. -/
def Route.success_proba (cdf : Cdf) (r : Route) :
    Except PyError (Rat × (ID × ID × EdgeProps)) :=
  if r.connections.isEmpty then Except.error PyError.assertionError
  else successAux cdf r.distances (enumPairs r.connections) 1 1 none

/-- `Route.dep_time` of `route.py`. -/
def Route.dep_time (r : Route) : Except PyError Rat :=
  if r.connections.isEmpty then Except.error PyError.assertionError
  else
    match r.distances.get? 0 with
    | none => Except.error PyError.indexError
    | some d0 => Except.ok d0.prev_props.dep_time

/-- `Route.travel_time` of `route.py`. -/
def Route.travel_time (r : Route) : Except PyError Rat :=
  if r.connections.isEmpty then Except.error PyError.assertionError
  else
    match r.distances.get? 0 with
    | none => Except.error PyError.indexError
    | some d0 => Except.ok d0.cum_time

/-- `Route.arr_time` of `route.py` (`travel_time() + distances[0].prev_props['dep_time']`). -/
def Route.arr_time (r : Route) : Except PyError Rat :=
  if r.connections.isEmpty then Except.error PyError.assertionError
  else
    match r.travel_time with
    | Except.error e => Except.error e
    | Except.ok tt =>
      match r.distances.get? 0 with
      | none => Except.error PyError.indexError
      | some d0 => Except.ok (tt + d0.prev_props.dep_time)

/-- One parallel edge of the (reversed) transport multigraph: endpoints,
the `networkx` edge key, and the attribute record. -/
structure Edge where
  u : ID
  v : ID
  key : Nat
  props : EdgeProps
deriving DecidableEq, Repr

/-- The multigraph, as its edge list in insertion order. -/
abbrev Graph := List Edge

/-- `MAX_WAITING_TIME = 45 * 60` from `routing.py`. -/
def MAX_WAITING_TIME : Rat := 45 * 60

/-- The pruning comparison `props['dep_time'] >= current_best_dep_time`
where `current_best_dep_time = arr_time - distances[start]()`.  The cost
of an uninitialised label is float `inf`, making the comparison true
(`dep_time >= -inf`); `none` models that case. -/
def pruneOk (dep_time arr_time : Rat) : Option Rat → Bool
  | none => true
  | some c => decide (arr_time - c ≤ dep_time)

/-- The `time_filter` predicate of `Routing.stochastic_dijkstra.neighbours`.
`prev_props`, `previous_dep_time` and the start-label cost are the values
captured when `neighbours` is entered; the result is `none` when the
probability gate would raise (`KeyError` inside `connection_probability`),
which in the source aborts the whole search. -/
def time_filter (cdf : Cdf) (threshold : Rat) (prev_props : EdgeProps)
    (previous_dep_time arr_time : Rat) (startCost : Option Rat)
    (props : EdgeProps) : Option Bool :=
  let isFoot : Bool := decide (props.ttype = "Foot")
  let consecutiveFoot : Bool := isFoot && decide (prev_props.ttype = "Foot")
  let inTimeRange : Bool :=
    decide (props.arr_time ≤ previous_dep_time) &&
    decide (previous_dep_time - MAX_WAITING_TIME ≤ props.arr_time) &&
    pruneOk props.dep_time arr_time startCost
  if (isFoot || inTimeRange) && !consecutiveFoot then
    match connection_probability cdf props prev_props with
    | none => none
    | some p => some (decide (threshold ≤ p))
  else some false

/-- The mutable state of one `stochastic_dijkstra` run: the label table,
the predecessor dict (`none` models a missing key), the visited set and
the priority queue contents. -/
structure SearchState where
  dists : ID → TimeDistance
  prev : ID → Option ID
  visited : List ID
  queue : List (TimeDistance × ID)

/-- Pop a minimum-cost entry from the queue (`queue.get()` of the
`PriorityQueue`); among equal costs the earliest inserted is taken. -/
def popMin : List (TimeDistance × ID) →
    Option ((TimeDistance × ID) × List (TimeDistance × ID))
  | [] => none
  | x :: xs =>
    match popMin xs with
    | none => some (x, [])
    | some (m, rest) =>
      if (x.1.lt m.1) || !(m.1.lt x.1) then some (x, xs)
      else some (m, x :: rest)

/-- The inner `for` loop of `stochastic_dijkstra`: relax every out-edge of
`curr` that passes `time_filter`.  The three `captured*` arguments are the
values `neighbours` computes before the loop starts; the label additions
read the evolving `dists` table, as the source does. -/
def relaxAll (cdf : Cdf) (threshold arr_time : Rat) (curr : ID)
    (capturedPrev : EdgeProps) (capturedDep : Rat) (capturedCost : Option Rat) :
    List Edge → SearchState → Except PyError SearchState
  | [], st => Except.ok st
  | e :: es, st =>
    match time_filter cdf threshold capturedPrev capturedDep arr_time
        capturedCost e.props with
    | none => Except.error PyError.keyError
    | some false =>
      relaxAll cdf threshold arr_time curr capturedPrev capturedDep capturedCost es st
    | some true =>
      let new_dist := (st.dists curr).add e.props
      if new_dist.lt (st.dists e.v) then
        let nd := new_dist.updated
        let st2 : SearchState :=
          { st with
              dists := fun x => if x = e.v then nd else st.dists x
              prev := fun x => if x = e.v then some curr else st.prev x }
        if st2.visited.contains e.v then
          relaxAll cdf threshold arr_time curr capturedPrev capturedDep capturedCost es st2
        else
          relaxAll cdf threshold arr_time curr capturedPrev capturedDep capturedCost es
            { st2 with visited := e.v :: st2.visited, queue := st2.queue ++ [(nd, e.v)] }
      else
        relaxAll cdf threshold arr_time curr capturedPrev capturedDep capturedCost es st

/-- The main `while not queue.empty()` loop of `stochastic_dijkstra`,
with explicit fuel. -/
def dijkstraLoop (cdf : Cdf) (graph : Graph) (threshold arr_time : Rat)
    (start : ID) : Nat → SearchState → Except PyError SearchState
  | 0, st =>
    match popMin st.queue with
    | none => Except.ok st
    | some _ => Except.error PyError.fuelExhausted
  | fuel + 1, st =>
    match popMin st.queue with
    | none => Except.ok st
    | some ((_, curr), rest) =>
      let st1 : SearchState := { st with queue := rest, visited := curr :: st.visited }
      let capturedPrev := (st1.dists curr).prev_props
      let capturedDep := (st1.dists curr).previous_dep_time
      let capturedCost := (st1.dists start).call
      match relaxAll cdf threshold arr_time curr capturedPrev capturedDep capturedCost
          (graph.filter (fun e => e.u = curr)) st1 with
      | Except.error err => Except.error err
      | Except.ok st2 => dijkstraLoop cdf graph threshold arr_time start fuel st2

/-- The `while node != end` walk of `build_route`, with explicit fuel
(a cyclic `prev` chain would loop forever in the source). -/
def buildWalk (prevT : ID → Option ID) (dists : ID → TimeDistance)
    (endStop : ID) : Nat → ID → Route → Except PyError Route
  | 0, _, _ => Except.error PyError.fuelExhausted
  | fuel + 1, node, acc =>
    let acc2 : Route :=
      { connections := acc.connections ++ [node]
        distances := acc.distances ++ [dists node] }
    if node = endStop then Except.ok acc2
    else
      match prevT node with
      | none => Except.error PyError.keyError
      | some nxt => buildWalk prevT dists endStop fuel nxt acc2

/-- `build_route` of `stochastic_dijkstra`: `none` when `start` never
received a predecessor. -/
def build_route (start endStop : ID) (prevT : ID → Option ID)
    (dists : ID → TimeDistance) (fuel : Nat) : Except PyError (Option Route) :=
  match prevT start with
  | none => Except.ok none
  | some _ =>
    match buildWalk prevT dists endStop fuel start { connections := [], distances := [] } with
    | Except.error e => Except.error e
    | Except.ok r => Except.ok (some r)

/-- `Routing.stochastic_dijkstra` (names already resolved to stop ids,
`arr_time` already a timestamp). -/
def stochastic_dijkstra (cdf : Cdf) (graph : Graph) (start endStop : ID)
    (arr_time threshold : Rat) (fuel : Nat) : Except PyError (Option Route) :=
  let init := TimeDistance.initial arr_time
  let dists0 : ID → TimeDistance := fun v => if v = endStop then init.updated else init
  let st0 : SearchState :=
    { dists := dists0
      prev := fun _ => none
      visited := []
      queue := [(dists0 endStop, endStop)] }
  match dijkstraLoop cdf graph threshold arr_time start fuel st0 with
  | Except.error e => Except.error e
  | Except.ok st => build_route start endStop st.prev st.dists fuel

/-- The `isSameEdge` test of `Routing.robust.find_edge_key`. -/
def isSameEdge (props e : EdgeProps) : Bool :=
  (decide (e.dep_time = props.dep_time) && decide (e.arr_time = props.arr_time)
      && decide (e.trip_id = props.trip_id))
    || (decide (props.ttype = "Foot") && decide (e.ttype = "Foot"))

/-- `Routing.robust.find_edge_key`: iterate over the edges from `u` to `v`;
`graph[u][v]` raises `KeyError` when there is no such adjacency. -/
def find_edge_key (graph : Graph) (u v : ID) (props : EdgeProps) :
    Except PyError (Option Nat) :=
  let edges := graph.filter (fun e => decide (e.u = u) && decide (e.v = v))
  if edges.isEmpty then Except.error PyError.keyError
  else Except.ok ((edges.find? (fun e => isSameEdge props e.props)).map Edge.key)

/-- `graph.remove_edge(u, v, key=k)` of `networkx`: removing a named key
that is absent raises; `key=None` removes the most recently added edge
between `u` and `v` (dict `popitem`), raising when there is none. -/
def remove_edge (graph : Graph) (u v : ID) : Option Nat → Except PyError Graph
  | some k =>
    if graph.any (fun e => decide (e.u = u) && decide (e.v = v) && decide (e.key = k)) then
      Except.ok (graph.filter
        (fun e => !(decide (e.u = u) && decide (e.v = v) && decide (e.key = k))))
    else Except.error PyError.networkxError
  | none =>
    match (graph.filter (fun e => decide (e.u = u) && decide (e.v = v))).getLast? with
    | none => Except.error PyError.networkxError
    | some last =>
      Except.ok (graph.filter
        (fun e => !(decide (e.u = u) && decide (e.v = v) && decide (e.key = last.key))))

/-- The `while i < max_iter and len(routes_list) < number_of_routes` loop
of `Routing.robust`; `rem` is the number of loop iterations still allowed
(`max_iter - i`, with `i` starting at `1`). -/
def robustLoop (cdf : Cdf) (start endStop : ID) (arr_time threshold : Rat)
    (number_of_routes fuel : Nat) :
    Nat → Graph → Rat → Route → (ID × ID × EdgeProps) → List Route →
    Except PyError (Option (List Route))
  | 0, _, _, route, _, routes_list =>
    Except.ok (some (if routes_list.isEmpty then routes_list ++ [route] else routes_list))
  | rem + 1, graph, proba, route, (u, v, props), routes_list =>
    if routes_list.length < number_of_routes then
      match find_edge_key graph u v props with
      | Except.error err => Except.error err
      | Except.ok to_remove =>
        match remove_edge graph u v to_remove with
        | Except.error err => Except.error err
        | Except.ok graph2 =>
          match stochastic_dijkstra cdf graph2 start endStop arr_time threshold fuel with
          | Except.error err => Except.error err
          | Except.ok none =>
            Except.ok (some (if routes_list.isEmpty then routes_list ++ [route] else routes_list))
          | Except.ok (some new_route) =>
            match new_route.success_proba cdf with
            | Except.error err => Except.error err
            | Except.ok (new_proba, e2) =>
              let routes2 :=
                if threshold ≤ new_proba then routes_list ++ [new_route] else routes_list
              if proba < new_proba then
                robustLoop cdf start endStop arr_time threshold number_of_routes fuel
                  rem graph2 new_proba new_route e2 routes2
              else
                robustLoop cdf start endStop arr_time threshold number_of_routes fuel
                  rem graph2 proba route e2 routes2
    else
      Except.ok (some (if routes_list.isEmpty then routes_list ++ [route] else routes_list))

/-- `Routing.robust`.  `Except.ok none` models the early `return None`
taken when the very first search finds no route. -/
def robust (cdf : Cdf) (G : Graph) (start endStop : ID)
    (arr_time threshold : Rat) (max_iter number_of_routes fuel : Nat) :
    Except PyError (Option (List Route)) :=
  let graph := G
  match stochastic_dijkstra cdf graph start endStop arr_time threshold fuel with
  | Except.error err => Except.error err
  | Except.ok none => Except.ok none
  | Except.ok (some route) =>
    match route.success_proba cdf with
    | Except.error err => Except.error err
    | Except.ok (proba, uvp) =>
      let routes_list := if threshold ≤ proba then [route] else []
      robustLoop cdf start endStop arr_time threshold number_of_routes fuel
        (max_iter - 1) graph proba route uvp routes_list

/-- `TimeDistance.__add__` with the heap made explicit: the store maps
edge identities to their attribute dicts, the label holds a reference
into it only through the value read at entry.  `props = props.copy()`
followed by item assignments updates a fresh local record, so the store
component of the result is the input store; a translation of the same
lines without the `.copy()` would instead return
`Function.update store eid rewritten`. -/
def addWithStore (store : Nat → EdgeProps) (self : TimeDistance) (eid : Nat) :
    (Nat → EdgeProps) × TimeDistance :=
  let props := store eid
  let props2 :=
    if props.ttype = "Foot" then
      { props with
          dep_time := self.prev_props.dep_time - props.travel_time
          arr_time := self.prev_props.dep_time }
    else props
  (store,
    { first := self.first
      cum_time := self.cum_time + self.prev_props.dep_time - props2.arr_time
        + props2.travel_time
      prev_props := props2 })

/-- `Routing.robust` with the planner's shared graph threaded as explicit
state: `graph = self.G.copy()` snapshots the shared value and all later
`remove_edge` calls act on the snapshot, so the shared component is
returned unchanged.  A translation without the `.copy()` would thread the
removals back into the first component. -/
def robustWithShared (cdf : Cdf) (shared : Graph) (start endStop : ID)
    (arr_time threshold : Rat) (max_iter number_of_routes fuel : Nat) :
    Graph × Except PyError (Option (List Route)) :=
  let graph := shared
  (shared,
    robust cdf graph start endStop arr_time threshold max_iter number_of_routes fuel)

/-- A default label, used only as the `getD` fallback in theorem
statements. -/
def TimeDistance.dummy : TimeDistance := ⟨true, 0, INIT_PROPS 0⟩

/-- A constant stand-in for the external CDF (any value is a possible
CDF value at a single evaluation point). -/
def cdfOne : Cdf := fun _ _ => 1

/-- A CDF stand-in agreeing with `scipy.stats.gamma(*p).cdf` below the
location parameter, where the genuine CDF is exactly `0`. -/
def stepCdf : Cdf := fun p t => if t < p.loc then 0 else 1

/-- A constant-`1/2` CDF stand-in. -/
def cdfHalf : Cdf := fun _ _ => 1 / 2

/-- Gamma parameters used by concrete witnesses. -/
def gpW : GammaParams := ⟨2, 0, 60⟩

/-- A scheduled bus edge with a fitted delay model, arriving exactly at
the target time. -/
def edgeC7 : EdgeProps :=
  { ttype := "Bus", trip_id := TripId.real "T1", dep_time := 35000,
    arr_time := 36000, travel_time := 1000, gamma := some ⟨2, 0, 60⟩ }

/-- A scheduled bus edge without delay model. -/
def edgeAB : EdgeProps :=
  { ttype := "Bus", trip_id := TripId.real "T9", dep_time := 100,
    arr_time := 200, travel_time := 100, gamma := none }

/-- A graph whose only edge leaves `A`, so a search towards `start = A`
from `end = B` finds no route. -/
def G5 : Graph := [⟨"A", "B", 0, edgeAB⟩]

/-- A one-edge graph used to exercise the in-loop edge removal. -/
def G5b : Graph := [⟨"X", "Y", 3, edgeAB⟩]

/-- A placeholder route value for instantiating the robust-planner loop. -/
def routeW : Route := ⟨["A"], [TimeDistance.initial 0]⟩

/-- The scheduled edge of the two-stop witness graph (reversed direction:
stored from arrival stop `B` to departure stop `A`). -/
def e6props : EdgeProps :=
  { ttype := "Bus", trip_id := TripId.real "T1", dep_time := 36000,
    arr_time := 36600, travel_time := 600, gamma := none }

/-- The two-stop witness graph. -/
def G6 : Graph := [⟨"B", "A", 0, e6props⟩]

/-- The route that the search finds on `G6`. -/
def r6 : Route :=
  ⟨["A", "B"], [⟨false, 600, e6props⟩, ⟨false, 0, INIT_PROPS 36600⟩]⟩

/-- First leg of the three-stop witness route. -/
def p0 : EdgeProps := ⟨"Bus", TripId.real "a", 50, 100, 50, some gpW⟩

/-- Second leg of the three-stop witness route. -/
def p1 : EdgeProps := ⟨"Tram", TripId.real "b", 200, 300, 100, some gpW⟩

/-- A three-stop route whose two transfer probabilities tie at `1/2`. -/
def rW : Route :=
  ⟨["X", "Y", "Z"],
   [⟨false, 10, p0⟩, ⟨false, 5, p1⟩, ⟨false, 0, INIT_PROPS 400⟩]⟩

/-- A foot edge as stored in the graph (`dep_time = arr_time = 0`). -/
def footE : EdgeProps := ⟨"Foot", TripId.foot, 0, 0, 300, none⟩

/-- A label whose `prev_props` is anchored at time `1000`. -/
def labelW : TimeDistance := ⟨false, 50, INIT_PROPS 1000⟩

/-- The sentinel record, used as a (never-occurring in the program)
`prev_props` argument. -/
def initPrevW : EdgeProps := INIT_PROPS 100

/-! ## Theorems -/

/-- The `pruneOk` comparison, characterised propositionally. -/
theorem pruneOk_iff (dep arrT : Rat) (sc : Option Rat) :
    pruneOk dep arrT sc = true ↔ ∀ c, sc = some c → arrT - c ≤ dep := by
  cases sc <;> simp [pruneOk]

/-- C1: `connection_probability` returns `1.0` on the three fall-through
cases (same trip, downstream foot, missing gamma) and otherwise the Gamma
CDF of `prev_props.gamma` at the slack minus the mode-dependent transfer
penalty chosen by `prev_props.ttype`; the penalty table is the eleven-entry
`EXTRA_TRANSFER_TIME` map.  The hypothesis that `prev_props.ttype` is a
key of the table holds for every edge record of the graph. -/
theorem C1_spec (cdf : Cdf) (prev curr : EdgeProps) (pen : Rat)
    (hpen : EXTRA_TRANSFER_TIME prev.ttype = some pen) :
    (EXTRA_TRANSFER_TIME "Bus" = some 20 ∧ EXTRA_TRANSFER_TIME "Foot" = some 20 ∧
     EXTRA_TRANSFER_TIME "Tram" = some 30 ∧ EXTRA_TRANSFER_TIME "S-Bahn" = some 100 ∧
     EXTRA_TRANSFER_TIME "Extrazug" = some 100 ∧
     EXTRA_TRANSFER_TIME "InterRegio" = some 120 ∧
     EXTRA_TRANSFER_TIME "Eurocity" = some 120 ∧
     EXTRA_TRANSFER_TIME "RegioExpress" = some 120 ∧
     EXTRA_TRANSFER_TIME "ICE" = some 120 ∧ EXTRA_TRANSFER_TIME "Eurostar" = some 120 ∧
     EXTRA_TRANSFER_TIME "Intercity" = some 120) ∧
    ((prev.trip_id = curr.trip_id ∨ curr.ttype = "Foot" ∨ prev.gamma = none) →
      connection_probability cdf prev curr = some 1) ∧
    (∀ gp, prev.trip_id ≠ curr.trip_id → curr.ttype ≠ "Foot" → prev.gamma = some gp →
      connection_probability cdf prev curr
        = some (cdf gp (curr.dep_time - prev.arr_time - pen))) := by
  refine ⟨by decide, ?_, ?_⟩
  · intro h
    by_cases hid : prev.trip_id = curr.trip_id
    · simp [connection_probability, compute_delay, connection_probability_wrapper, hid]
    · rcases h with h | h | h
      · exact absurd h hid
      · simp [connection_probability, compute_delay, connection_probability_wrapper,
          hid, hpen, h]
      · simp [connection_probability, compute_delay, connection_probability_wrapper,
          hid, hpen, h]
  · intro gp hid hfoot hgp
    have hcd : compute_delay prev.arr_time curr.dep_time prev.ttype
        prev.trip_id curr.trip_id = some (curr.dep_time - prev.arr_time - pen) := by
      simp [compute_delay, hid, hpen]
    simp [connection_probability, hcd, connection_probability_wrapper, hfoot, hid, hgp]

/-- C1 witness: a concrete mode-changing pair with a delay model gets the
CDF at slack `200 - 100` minus the `Bus` penalty `20`. -/
theorem C1_witness :
    connection_probability cdfHalf p0 p1 = some (cdfHalf gpW (200 - 100 - 20)) := by
  have h := (C1_spec cdfHalf p0 p1 20 (by decide)).2.2 gpW (by decide) (by decide) rfl
  rw [h]
  norm_num [p0, p1]

/-- C2: an out-edge passes the search's `time_filter` exactly when it is a
foot edge or lies in the time band (arrives before the captured departure,
within `MAX_WAITING_TIME = 2700` seconds of it, and survives the pruning
bound against the best start label), is not a second consecutive foot hop,
and its connection probability (arguments in forward order: the edge
first) reaches the threshold non-strictly. -/
theorem C2_spec (cdf : Cdf) (threshold : Rat) (prev_props : EdgeProps)
    (prev_dep arr_time : Rat) (startCost : Option Rat) (props : EdgeProps)
    (p : Rat) (hp : connection_probability cdf props prev_props = some p) :
    MAX_WAITING_TIME = 2700 ∧
    (time_filter cdf threshold prev_props prev_dep arr_time startCost props
        = some true ↔
      ((props.ttype = "Foot" ∨
         (props.arr_time ≤ prev_dep ∧
          prev_dep - MAX_WAITING_TIME ≤ props.arr_time ∧
          ∀ c, startCost = some c → arr_time - c ≤ props.dep_time)) ∧
       ¬(props.ttype = "Foot" ∧ prev_props.ttype = "Foot") ∧
       threshold ≤ p)) := by
  refine ⟨by norm_num [MAX_WAITING_TIME], ?_⟩
  simp only [time_filter, hp]
  split
  next hcond =>
    simp only [Option.some.injEq, decide_eq_true_eq]
    simp [pruneOk_iff] at hcond
    constructor
    · intro hth
      simp
      tauto
    · exact fun h => h.2.2
  next hcond =>
    simp [pruneOk_iff] at hcond
    constructor
    · intro h
      simp at h
    · intro h
      simp at h
      exfalso
      tauto

/-- C2 witness: a concrete in-band, non-foot, above-threshold edge is
eligible. -/
theorem C2_witness :
    time_filter cdfOne (8 / 10) (INIT_PROPS 400) 400 400 none p1 = some true :=
  ((C2_spec cdfOne (8 / 10) (INIT_PROPS 400) 400 400 none p1 1 rfl).2).mpr
    ⟨Or.inr ⟨by norm_num [p1], by norm_num [p1, MAX_WAITING_TIME],
        fun c hc => by cases hc⟩,
      by decide, by norm_num⟩

/-- C3: relaxation rewrites foot-edge times (departure anchored
`travel_time` before the previous departure, arrival exactly at it), adds
the waiting plus travel time to the cumulative cost using the possibly
rewritten record, stores that record as `prev_props`, and inherits the
uninitialised flag. -/
theorem C3_spec (l : TimeDistance) (e : EdgeProps) :
    (e.ttype = "Foot" →
      (l.add e).prev_props.dep_time = l.prev_props.dep_time - e.travel_time ∧
      (l.add e).prev_props.arr_time = l.prev_props.dep_time) ∧
    (l.add e).cum_time
      = l.cum_time + (l.prev_props.dep_time - (footRewrite l e).arr_time)
        + (footRewrite l e).travel_time ∧
    (l.add e).prev_props = footRewrite l e ∧
    (l.add e).first = l.first := by
  refine ⟨fun hf => ?_, ?_, rfl, rfl⟩
  · simp [TimeDistance.add, footRewrite, hf]
  · show l.cum_time + l.prev_props.dep_time - (footRewrite l e).arr_time
        + (footRewrite l e).travel_time = _
    ring

/-- C3 witness: the foot rewrite at a concrete label and foot edge. -/
theorem C3_witness :
    (labelW.add footE).prev_props.dep_time
        = labelW.prev_props.dep_time - footE.travel_time ∧
    (labelW.add footE).prev_props.arr_time = labelW.prev_props.dep_time :=
  (C3_spec labelW footE).1 rfl

/-- C7 counterexample: for an edge with a fitted gamma model relaxed from
the initial label, the gate's probability is the CDF of the edge's own
gamma (here `0`: the effective slack `-20` is below the distribution's
location, where the Gamma CDF is exactly `0`), not `1.0` — refuting the
claim that the sentinel's `gamma = null` forces probability `1.0` on the
first hop. -/
theorem C7_counterexample :
    connection_probability stepCdf edgeC7 (INIT_PROPS 36000) ≠ some 1 := by
  have h : connection_probability stepCdf edgeC7 (INIT_PROPS 36000) = some 0 := by
    norm_num [connection_probability, compute_delay, connection_probability_wrapper,
      edgeC7, INIT_PROPS, INIT_TRIP_ID, INIT_TTYPE, stepCdf, EXTRA_TRANSFER_TIME,
      show TripId.real "T1" ≠ TripId.init from by decide,
      show ("Init" : String) ≠ "Foot" from by decide]
    exact Option.some_ne_none _
  rw [h]
  simp

/-- C7 (amended): the sentinel trip id matches no real or foot trip id,
so the first relaxation is a mode change and the penalty for the edge's
own mode is subtracted; the gate probability for the first hop is the
Gamma CDF of the edge's own gamma at
`arr_time_target - props.arr_time - penalty`, hence `1.0` exactly when
the edge itself has no delay model (the sentinel's null gamma is never
consulted, as it sits in the `curr_props` position). -/
theorem C7_amended (cdf : Cdf) (e : EdgeProps) (t pen : Rat)
    (hid : e.trip_id ≠ INIT_TRIP_ID)
    (hpen : EXTRA_TRANSFER_TIME e.ttype = some pen) :
    (∀ s, (INIT_PROPS t).trip_id ≠ TripId.real s) ∧
    (INIT_PROPS t).trip_id ≠ FOOT_TRIP_ID ∧
    (e.gamma = none → connection_probability cdf e (INIT_PROPS t) = some 1) ∧
    (∀ gp, e.gamma = some gp →
      connection_probability cdf e (INIT_PROPS t)
        = some (cdf gp (t - e.arr_time - pen))) := by
  have hcd : compute_delay e.arr_time t e.ttype e.trip_id INIT_TRIP_ID
      = some (t - e.arr_time - pen) := by
    simp [compute_delay, hid, hpen]
  refine ⟨by simp [INIT_PROPS, INIT_TRIP_ID],
    by simp [INIT_PROPS, INIT_TRIP_ID, FOOT_TRIP_ID], ?_, ?_⟩
  · intro hg
    simp [connection_probability, INIT_PROPS, hcd, connection_probability_wrapper, hg]
  · intro gp hg
    simp [connection_probability, INIT_PROPS, hcd, connection_probability_wrapper,
      hid, hg, INIT_TTYPE]

/-- C7 witness: the amended statement evaluated at the concrete edge of
the counterexample. -/
theorem C7_witness :
    connection_probability stepCdf edgeC7 (INIT_PROPS 36000)
      = some (stepCdf ⟨2, 0, 60⟩ (36000 - 36000 - 20)) :=
  (C7_amended stepCdf edgeC7 36000 20 (by decide) (by decide)).2.2.2 ⟨2, 0, 60⟩ rfl

/-- C8: with the heap made explicit, relaxing a (foot) edge leaves the
edge-attribute store unchanged (the source copies the record before the
item assignments) while producing the same label as the pure relaxation,
and the robust planner threads the shared graph through unchanged (it
removes edges only from its `self.G.copy()` snapshot). -/
theorem C8_spec (store : Nat → EdgeProps) (l : TimeDistance) (eid : Nat)
    (shared : Graph) (cdf : Cdf) (start endStop : ID) (arr_time threshold : Rat)
    (max_iter number_of_routes fuel : Nat) :
    (addWithStore store l eid).1 = store ∧
    (addWithStore store l eid).2 = l.add (store eid) ∧
    (robustWithShared cdf shared start endStop arr_time threshold max_iter
        number_of_routes fuel).1 = shared ∧
    (robustWithShared cdf shared start endStop arr_time threshold max_iter
        number_of_routes fuel).2
      = robust cdf shared start endStop arr_time threshold max_iter
          number_of_routes fuel :=
  ⟨rfl, rfl, rfl, rfl⟩

/-- C10: on a one-stop route the non-emptiness assertion passes but the
pair loop is empty, so `success_proba` fails with the unbound-local error
(`least_proba_edge` is never assigned), while `dep_time`, `travel_time`
and `arr_time` all succeed. -/
theorem C10_spec (cdf : Cdf) (x : ID) (d : TimeDistance) :
    (Route.mk [x] [d]).success_proba cdf = Except.error PyError.unboundLocalError ∧
    (Route.mk [x] [d]).success_proba cdf ≠ Except.error PyError.assertionError ∧
    (Route.mk [x] [d]).dep_time = Except.ok d.prev_props.dep_time ∧
    (Route.mk [x] [d]).travel_time = Except.ok d.cum_time ∧
    (Route.mk [x] [d]).arr_time = Except.ok (d.cum_time + d.prev_props.dep_time) :=
  ⟨rfl, by simp [Route.success_proba, enumPairs, enumPairsAux, successAux], rfl, rfl, rfl⟩

/-- C5 counterexample: on a graph whose only edge cannot be reached from
the destination, the very first search finds no route and `robust`
returns `None` (`Except.ok none`) rather than the list of accepted routes
the claim promises for a failing search "at any iteration, including the
first". -/
theorem C5_counterexample :
    robust cdfOne G5 "A" "B" 36000 (8 / 10) 10 1 5 = Except.ok none := rfl

/-- C5 (amended): when the very first search returns no route the robust
planner returns `None` (no list at all); when a search inside the
iteration loop returns no route the planner returns its list of accepted
routes, first pushing the most-robust route found so far when the list is
empty; and on loop exit (remaining-iteration budget exhausted, or enough
routes collected) an empty list likewise receives the most-robust route. -/
theorem C5_amended :
    (∀ (cdf : Cdf) (G : Graph) (start endStop : ID) (arrT thr : Rat)
        (max_iter k fuel : Nat),
      stochastic_dijkstra cdf G start endStop arrT thr fuel = Except.ok none →
      robust cdf G start endStop arrT thr max_iter k fuel = Except.ok none) ∧
    (∀ (cdf : Cdf) (start endStop : ID) (arrT thr : Rat) (k fuel rem : Nat)
        (graph graph2 : Graph) (proba : Rat) (route : Route)
        (u v : ID) (props : EdgeProps) (routes_list : List Route)
        (keyOut : Option Nat),
      routes_list.length < k →
      find_edge_key graph u v props = Except.ok keyOut →
      remove_edge graph u v keyOut = Except.ok graph2 →
      stochastic_dijkstra cdf graph2 start endStop arrT thr fuel = Except.ok none →
      robustLoop cdf start endStop arrT thr k fuel (rem + 1) graph proba route
          (u, v, props) routes_list
        = Except.ok (some (if routes_list.isEmpty then routes_list ++ [route]
            else routes_list))) ∧
    (∀ (cdf : Cdf) (start endStop : ID) (arrT thr : Rat) (k fuel : Nat)
        (graph : Graph) (proba : Rat) (route : Route) (u v : ID)
        (props : EdgeProps) (routes_list : List Route),
      robustLoop cdf start endStop arrT thr k fuel 0 graph proba route
          (u, v, props) routes_list
        = Except.ok (some (if routes_list.isEmpty then routes_list ++ [route]
            else routes_list))) ∧
    (∀ (cdf : Cdf) (start endStop : ID) (arrT thr : Rat) (k fuel rem : Nat)
        (graph : Graph) (proba : Rat) (route : Route) (u v : ID)
        (props : EdgeProps) (routes_list : List Route),
      ¬ routes_list.length < k →
      robustLoop cdf start endStop arrT thr k fuel (rem + 1) graph proba route
          (u, v, props) routes_list
        = Except.ok (some (if routes_list.isEmpty then routes_list ++ [route]
            else routes_list))) := by
  refine ⟨?_, ?_, ?_, ?_⟩
  · intro cdf G start endStop arrT thr max_iter k fuel h
    simp only [robust, h]
  · intro cdf start endStop arrT thr k fuel rem graph graph2 proba route u v props
      routes_list keyOut hlen hfind hrem hsearch
    unfold robustLoop
    simp only [if_pos hlen, hfind, hrem, hsearch]
  · intro cdf start endStop arrT thr k fuel graph proba route u v props routes_list
    rfl
  · intro cdf start endStop arrT thr k fuel rem graph proba route u v props
      routes_list h
    unfold robustLoop
    simp only [if_neg h]

/-- C5 witness: the three amended behaviours at concrete inputs — first
search empty gives `None`; an in-loop empty search returns the pushed
best route; loop exit with an empty list returns the pushed best route. -/
theorem C5_witness :
    robust cdfOne G5 "A" "B" 36000 (8 / 10) 10 1 5 = Except.ok none ∧
    robustLoop cdfOne "A" "B" 36000 (8 / 10) 1 5 1 G5b 1 routeW ("X", "Y", edgeAB) []
      = Except.ok (some [routeW]) ∧
    robustLoop cdfOne "A" "B" 36000 (8 / 10) 1 5 0 G5b 1 routeW ("X", "Y", edgeAB) []
      = Except.ok (some [routeW]) ∧
    robustLoop cdfOne "A" "B" 36000 (8 / 10) 0 5 3 G5b 1 routeW ("X", "Y", edgeAB)
        [routeW]
      = Except.ok (some [routeW]) := by
  refine ⟨C5_amended.1 cdfOne G5 "A" "B" 36000 (8 / 10) 10 1 5 rfl, ?_, ?_, ?_⟩
  · exact C5_amended.2.1 cdfOne "A" "B" 36000 (8 / 10) 1 5 0 G5b [] 1 routeW
      "X" "Y" edgeAB [] (some 3) (by decide) rfl rfl rfl
  · exact C5_amended.2.2.1 cdfOne "A" "B" 36000 (8 / 10) 1 5 G5b 1 routeW
      "X" "Y" edgeAB []
  · exact C5_amended.2.2.2 cdfOne "A" "B" 36000 (8 / 10) 0 5 2 G5b 1 routeW
      "X" "Y" edgeAB [routeW] (by decide)

/-- Totality of the unguarded penalty lookup: when `prev_props.ttype` is a
key of `EXTRA_TRANSFER_TIME`, `connection_probability` cannot raise. -/
theorem connection_probability_isSome (cdf : Cdf) (prev curr : EdgeProps)
    (h : (EXTRA_TRANSFER_TIME prev.ttype).isSome) :
    (connection_probability cdf prev curr).isSome := by
  by_cases hid : prev.trip_id = curr.trip_id
  · simp [connection_probability, compute_delay, hid]
  · rcases Option.isSome_iff_exists.mp h with ⟨pen, hpen⟩
    simp [connection_probability, compute_delay, hid, hpen]

/-- The `success_proba` loop raises no `KeyError` when every label it
reads in prev position has a table-covered mode. -/
theorem successAux_no_keyError (cdf : Cdf) (dists : List TimeDistance) :
    ∀ (ps : List (Nat × ID × ID)) (proba least : Rat)
      (edge : Option (ID × ID × EdgeProps)),
    (∀ p ∈ ps, ((dists.get? p.1).all
        (fun di => (EXTRA_TRANSFER_TIME di.prev_props.ttype).isSome)) = true) →
    successAux cdf dists ps proba least edge ≠ Except.error PyError.keyError := by
  intro ps
  induction ps with
  | nil =>
    intro proba least edge _
    cases edge <;> simp [successAux]
  | cons hd tl ih =>
    intro proba least edge hall
    obtain ⟨i, dep, arr⟩ := hd
    simp only [successAux]
    cases hdi : dists.get? i with
    | none => simp
    | some di =>
      cases hdj : dists.get? (i + 1) with
      | none => simp
      | some dj =>
        have hsome : (connection_probability cdf di.prev_props dj.prev_props).isSome := by
          apply connection_probability_isSome
          have hmem := hall (i, dep, arr) (List.mem_cons_self _ _)
          rw [hdi] at hmem
          simpa [Option.all] using hmem
        rcases Option.isSome_iff_exists.mp hsome with ⟨q, hq⟩
        simp only [hq]
        have htl := fun p hp => hall p (List.mem_cons_of_mem _ hp)
        split
        · exact ih _ _ _ htl
        · exact ih _ _ _ htl

/-- C9: the unguarded `EXTRA_TRANSFER_TIME[ttype]` lookup is total on
every call the program makes: (1) `connection_probability` succeeds
whenever its `prev_props.ttype` is a table key; (2) the search's gate
(`time_filter`, whose prev argument is a graph edge) never raises when the
edge's mode is a table key; (3) `success_proba` raises no `KeyError` when
every label read in prev position (indices `0..N-2`, never the `Init`
seed) carries a table-covered mode; (4) a direct call with
`prev_props.ttype = Init` and differing trip ids fails (`none` models the
`KeyError`). -/
theorem C9_spec :
    (∀ (cdf : Cdf) (prev curr : EdgeProps),
      (EXTRA_TRANSFER_TIME prev.ttype).isSome →
      (connection_probability cdf prev curr).isSome) ∧
    (∀ (cdf : Cdf) (thr : Rat) (pp : EdgeProps) (pd arrT : Rat)
        (sc : Option Rat) (props : EdgeProps),
      (EXTRA_TRANSFER_TIME props.ttype).isSome →
      time_filter cdf thr pp pd arrT sc props ≠ none) ∧
    (∀ (cdf : Cdf) (r : Route),
      (∀ p ∈ enumPairs r.connections, ((r.distances.get? p.1).all
          (fun di => (EXTRA_TRANSFER_TIME di.prev_props.ttype).isSome)) = true) →
      r.success_proba cdf ≠ Except.error PyError.keyError) ∧
    (∀ (cdf : Cdf) (prev curr : EdgeProps),
      prev.ttype = "Init" → prev.trip_id ≠ curr.trip_id →
      connection_probability cdf prev curr = none) := by
  refine ⟨connection_probability_isSome, ?_, ?_, ?_⟩
  · intro cdf thr pp pd arrT sc props hk
    rcases Option.isSome_iff_exists.mp
      (connection_probability_isSome cdf props pp hk) with ⟨p, hp⟩
    unfold time_filter
    rw [hp]
    split
    next heq => simp at heq
    next =>
      dsimp only
      split <;> simp
  · intro cdf r hall
    unfold Route.success_proba
    split
    · simp
    · exact successAux_no_keyError cdf r.distances (enumPairs r.connections) 1 1 none hall
  · intro cdf prev curr hty hne
    simp [connection_probability, compute_delay, hne, hty, EXTRA_TRANSFER_TIME]

/-- C9 witness: the four parts at concrete inputs, including the failing
direct call with the sentinel in prev position. -/
theorem C9_witness :
    (connection_probability cdfHalf p0 p1).isSome ∧
    time_filter cdfHalf (8 / 10) p1 200 400 none p0 ≠ none ∧
    (Route.mk ["X", "Y"]
        [⟨false, 0, p0⟩, ⟨false, 0, INIT_PROPS 400⟩]).success_proba cdfHalf
      ≠ Except.error PyError.keyError ∧
    connection_probability cdfHalf initPrevW p0 = none :=
  ⟨C9_spec.1 cdfHalf p0 p1 (by decide),
   C9_spec.2.1 cdfHalf (8 / 10) p1 200 400 none p0 (by decide),
   C9_spec.2.2.1 cdfHalf _ (by decide),
   C9_spec.2.2.2 cdfHalf initPrevW p0 (by decide) (by decide)⟩

/-- Relaxation preserves the quantity `cum_time + prev_props.dep_time`
whenever the edge satisfies the data-model precondition (non-foot edges
have `travel_time = arr_time - dep_time`; foot edges are rewritten so
nothing is needed of them). -/
theorem add_inv (t : Rat) (l : TimeDistance) (e : EdgeProps)
    (he : e.ttype ≠ "Foot" → e.travel_time = e.arr_time - e.dep_time)
    (hl : l.cum_time + l.prev_props.dep_time = t) :
    (l.add e).cum_time + (l.add e).prev_props.dep_time = t := by
  unfold TimeDistance.add footRewrite
  by_cases hf : e.ttype = "Foot" <;> simp [hf]
  · linarith
  · linarith [he hf]

/-- The inner relaxation loop preserves the label invariant
`cum_time + prev_props.dep_time = t` at every node. -/
theorem relaxAll_inv (cdf : Cdf) (thr arrT : Rat) (curr : ID) (cp : EdgeProps)
    (cd : Rat) (cc : Option Rat) (t : Rat) :
    ∀ (es : List Edge) (st st2 : SearchState),
    (∀ e ∈ es, e.props.ttype ≠ "Foot" →
        e.props.travel_time = e.props.arr_time - e.props.dep_time) →
    (∀ v, (st.dists v).cum_time + (st.dists v).prev_props.dep_time = t) →
    relaxAll cdf thr arrT curr cp cd cc es st = Except.ok st2 →
    ∀ v, (st2.dists v).cum_time + (st2.dists v).prev_props.dep_time = t := by
  intro es
  induction es with
  | nil =>
    intro st st2 _ hInv h
    simp only [relaxAll, Except.ok.injEq] at h
    subst h
    exact hInv
  | cons e es ih =>
    intro st st2 hes hInv h
    have hes' := fun e' he' => hes e' (List.mem_cons_of_mem _ he')
    have hupd : ∀ v,
        ((fun x => if x = e.v then ((st.dists curr).add e.props).updated
            else st.dists x) v).cum_time
          + ((fun x => if x = e.v then ((st.dists curr).add e.props).updated
            else st.dists x) v).prev_props.dep_time = t := by
      intro v
      by_cases hv : v = e.v
      · simp only [hv, if_pos]
        have := add_inv t (st.dists curr) e.props
          (hes e (List.mem_cons_self _ _)) (hInv curr)
        simpa [TimeDistance.updated] using this
      · simpa [hv] using hInv v
    simp only [relaxAll] at h
    split at h
    · exact absurd h (by simp)
    · exact ih _ _ hes' hInv h
    · split at h
      · split at h
        · exact ih _ _ hes' hupd h
        · exact ih _ _ hes' hupd h
      · exact ih _ _ hes' hInv h

/-- The main search loop preserves the label invariant. -/
theorem dijkstraLoop_inv (cdf : Cdf) (graph : Graph) (thr arrT : Rat)
    (start : ID) (t : Rat)
    (hg : ∀ e ∈ graph, e.props.ttype ≠ "Foot" →
        e.props.travel_time = e.props.arr_time - e.props.dep_time) :
    ∀ (fuel : Nat) (st st2 : SearchState),
    (∀ v, (st.dists v).cum_time + (st.dists v).prev_props.dep_time = t) →
    dijkstraLoop cdf graph thr arrT start fuel st = Except.ok st2 →
    ∀ v, (st2.dists v).cum_time + (st2.dists v).prev_props.dep_time = t := by
  intro fuel
  induction fuel with
  | zero =>
    intro st st2 hInv h
    simp only [dijkstraLoop] at h
    split at h
    · simp only [Except.ok.injEq] at h
      subst h
      exact hInv
    · exact absurd h (by simp)
  | succ fuel ih =>
    intro st st2 hInv h
    simp only [dijkstraLoop] at h
    split at h
    · simp only [Except.ok.injEq] at h
      subst h
      exact hInv
    · split at h
      · exact absurd h (by simp)
      · refine ih _ _ ?_ h
        refine relaxAll_inv cdf thr arrT _ _ _ _ t _ _ _
          (fun e' he' => hg e' (List.mem_of_mem_filter he')) ?_ (by assumption)
        exact hInv

/-- Every label of a route built by `buildWalk` is either carried over
from the accumulator or read from the final distance table. -/
theorem buildWalk_mem (prevT : ID → Option ID) (dists : ID → TimeDistance)
    (endStop : ID) :
    ∀ (fuel : Nat) (node : ID) (acc r : Route),
    buildWalk prevT dists endStop fuel node acc = Except.ok r →
    ∀ d ∈ r.distances, d ∈ acc.distances ∨ ∃ v, d = dists v := by
  intro fuel
  induction fuel with
  | zero =>
    intro node acc r h
    simp [buildWalk] at h
  | succ fuel ih =>
    intro node acc r h
    simp only [buildWalk] at h
    split at h
    · simp only [Except.ok.injEq] at h
      subst h
      intro d hd
      rcases List.mem_append.mp hd with hd | hd
      · exact Or.inl hd
      · simp only [List.mem_singleton] at hd
        exact Or.inr ⟨node, hd⟩
    · split at h
      · exact absurd h (by simp)
      · intro d hd
        rcases ih _ _ _ h d hd with hmem | hv
        · rcases List.mem_append.mp hmem with h1 | h1
          · exact Or.inl h1
          · simp only [List.mem_singleton] at h1
            exact Or.inr ⟨node, h1⟩
        · exact Or.inr hv

/-- A route reconstructed from a distance table in which every label
satisfies the invariant has `arr_time` equal to the invariant value. -/
theorem build_route_inv (start endStop : ID) (prevT : ID → Option ID)
    (dists : ID → TimeDistance) (fuel : Nat) (r : Route) (t a : Rat)
    (hInv : ∀ v, (dists v).cum_time + (dists v).prev_props.dep_time = t)
    (hbr : build_route start endStop prevT dists fuel = Except.ok (some r))
    (ha : r.arr_time = Except.ok a) : a = t := by
  unfold build_route at hbr
  split at hbr
  · exact absurd hbr (by simp)
  · split at hbr
    · exact absurd hbr (by simp)
    · next rr hw =>
      simp only [Except.ok.injEq, Option.some.injEq] at hbr
      subst hbr
      have hmem := buildWalk_mem prevT dists endStop fuel start _ rr hw
      unfold Route.arr_time at ha
      split at ha
      · exact absurd ha (by simp)
      · split at ha
        · exact absurd ha (by simp)
        · next tt htt =>
          split at ha
          · exact absurd ha (by simp)
          · next d0 hg0 =>
            simp only [Except.ok.injEq] at ha
            unfold Route.travel_time at htt
            split at htt
            · exact absurd htt (by simp)
            · rw [hg0] at htt
              simp only [Except.ok.injEq] at htt
              rcases hmem d0 (List.get?_mem hg0) with hin | ⟨v, hv⟩
              · simp at hin
              · have hit := hInv v
                rw [← hv] at hit
                linarith


/-- C6: every route returned by the search satisfies
`arr_time() ≤ arr_time_target`, under the data-model precondition that
non-foot edges have `travel_time = arr_time - dep_time` and foot edges
non-negative travel time: the quantity `cum_time + prev_props.dep_time`
is preserved by every relaxation from its seed value `arr_time_target`
(in fact the bound holds with equality). -/
theorem C6_spec (cdf : Cdf) (graph : Graph) (start endStop : ID)
    (arrT thr : Rat) (fuel : Nat) (r : Route)
    (hE : ∀ e ∈ graph, e.props.ttype ≠ "Foot" →
        e.props.travel_time = e.props.arr_time - e.props.dep_time)
    (hF : ∀ e ∈ graph, e.props.ttype = "Foot" → 0 ≤ e.props.travel_time)
    (hres : stochastic_dijkstra cdf graph start endStop arrT thr fuel
        = Except.ok (some r)) :
    ∀ a, r.arr_time = Except.ok a → a ≤ arrT := by
  intro a ha
  simp only [stochastic_dijkstra] at hres
  split at hres
  · exact absurd hres (by simp)
  · next st heq =>
    have hInv := dijkstraLoop_inv cdf graph thr arrT start arrT hE fuel _ st ?_ heq
    · exact le_of_eq
        (build_route_inv start endStop st.prev st.dists fuel r arrT a hInv hres ha)
    · intro v
      by_cases hv : v = endStop <;>
        simp [hv, TimeDistance.initial, TimeDistance.updated, INIT_PROPS]

/-- C6 witness: on the two-stop graph the returned route arrives exactly
at the target `36600`. -/
theorem C6_witness : r6.arr_time = Except.ok 36600 ∧ (36600 : Rat) ≤ 36600 := by
  have hsearch : stochastic_dijkstra cdfOne G6 "A" "B" 36600 (8 / 10) 5
      = Except.ok (some r6) := by
    norm_num [stochastic_dijkstra, dijkstraLoop, popMin, relaxAll, time_filter, pruneOk,
      connection_probability, compute_delay, connection_probability_wrapper,
      EXTRA_TRANSFER_TIME, TimeDistance.add, footRewrite, TimeDistance.lt,
      TimeDistance.call, TimeDistance.updated, TimeDistance.initial,
      TimeDistance.previous_dep_time, INIT_PROPS, INIT_TTYPE, INIT_TRIP_ID,
      buildWalk, build_route, G6, e6props, cdfOne, r6, MAX_WAITING_TIME,
      show ("A" : String) ≠ "B" from by decide,
      show ("B" : String) ≠ "A" from by decide,
      show ("Bus" : String) ≠ "Foot" from by decide,
      show ("Init" : String) ≠ "Foot" from by decide,
      show TripId.real "T1" ≠ TripId.init from by decide]
  have harr : r6.arr_time = Except.ok 36600 := by
    norm_num [Route.arr_time, Route.travel_time, r6, e6props, INIT_PROPS]
  exact ⟨harr,
    C6_spec cdfOne G6 "A" "B" 36600 (8 / 10) 5 r6
      (by
        intro e he hne
        simp only [G6, List.mem_singleton] at he
        subst he
        norm_num [e6props])
      (by
        intro e he h
        simp only [G6, List.mem_singleton] at he
        subst he
        exact absurd h (by decide))
      hsearch 36600 harr⟩

/-- C10 witness: the one-stop behaviour at a concrete route. -/
theorem C10_witness :
    (Route.mk ["A"] [TimeDistance.initial 10]).success_proba cdfOne
      = Except.error PyError.unboundLocalError ∧
    (Route.mk ["A"] [TimeDistance.initial 10]).arr_time = Except.ok (0 + 10) :=
  ⟨(C10_spec cdfOne "A" (TimeDistance.initial 10)).1,
   (C10_spec cdfOne "A" (TimeDistance.initial 10)).2.2.2.2⟩

/-- A successful `get?` in terms of `getD`, for indices in range. -/
theorem get?_eq_some_getD {α : Type} (l : List α) (i : Nat) (d : α)
    (h : i < l.length) : l.get? i = some (l.getD i d) := by
  rw [List.getD_eq_get? l i d, List.get?_eq_get h]
  rfl

/-- The pair enumeration, written as a map over an index range. -/
theorem enumPairsAux_eq :
    ∀ (l : List ID) (i0 : Nat),
    enumPairsAux i0 l = (List.range' i0 (l.length - 1)).map
      (fun k => (k, l.getD (k - i0) "", l.getD (k - i0 + 1) "")) := by
  intro l
  induction l with
  | nil => intro i0; simp [enumPairsAux]
  | cons x t ih =>
    intro i0
    cases t with
    | nil => simp [enumPairsAux]
    | cons y t2 =>
      simp only [enumPairsAux]
      rw [ih (i0 + 1)]
      have hlen : (x :: y :: t2).length - 1 = ((y :: t2).length - 1) + 1 := by
        simp [List.length_cons]
      rw [hlen, List.range'_succ]
      simp only [List.map_cons]
      congr 1
      · simp
      · refine List.map_congr_left ?_
        intro k hk
        have hk1 : i0 + 1 ≤ k := (List.mem_range'_1.mp hk).1
        have h1 : k - i0 = (k - (i0 + 1)) + 1 := by omega
        rw [h1]
        simp [List.getD_cons_succ]

/-- `enumPairs` as a map over `range'`. -/
theorem enumPairs_eq (l : List ID) :
    enumPairs l = (List.range' 0 (l.length - 1)).map
      (fun k => (k, l.getD k "", l.getD (k + 1) "")) := by
  rw [enumPairs, enumPairsAux_eq l 0]
  simp

/-- Main loop invariant of `success_proba`: over a consecutive index
range the loop multiplies every probability into the accumulator and
tracks the last index achieving the minimum (ties to the later index),
falling back to the incoming accumulator pair when nothing reaches the
running minimum. -/
theorem successAux_spec (cdf : Cdf) (dists : List TimeDistance) (c : Nat → ID)
    (d : Nat → TimeDistance) (q : Nat → Rat) :
    ∀ (m i0 : Nat) (proba least : Rat) (edge : Option (ID × ID × EdgeProps)),
    (∀ i, i0 ≤ i → i < i0 + m → dists.get? i = some (d i)) →
    (∀ i, i0 ≤ i → i < i0 + m → dists.get? (i + 1) = some (d (i + 1))) →
    (∀ i, i0 ≤ i → i < i0 + m →
      connection_probability cdf (d i).prev_props (d (i + 1)).prev_props
        = some (q i)) →
    ((∀ i, i0 ≤ i → i < i0 + m → least < q i) ∧
      successAux cdf dists ((List.range' i0 m).map (fun i => (i, c i, c (i + 1))))
          proba least edge
        = (match edge with
           | none => Except.error PyError.unboundLocalError
           | some e => Except.ok (proba * ((List.range' i0 m).map q).prod, e)))
    ∨ (∃ k, i0 ≤ k ∧ k < i0 + m ∧ q k ≤ least ∧
        (∀ i, i0 ≤ i → i < i0 + m → q k ≤ q i) ∧
        (∀ j, k < j → j < i0 + m → q k < q j) ∧
        successAux cdf dists ((List.range' i0 m).map (fun i => (i, c i, c (i + 1))))
            proba least edge
          = Except.ok (proba * ((List.range' i0 m).map q).prod,
              (c (k + 1), c k, (d k).prev_props))) := by
  intro m
  induction m with
  | zero =>
    intro i0 proba least edge _ _ _
    left
    refine ⟨fun i h1 h2 => absurd h2 (by omega), ?_⟩
    cases edge <;> simp [successAux]
  | succ m ih =>
    intro i0 proba least edge hd1 hd2 hq
    have hd1' : ∀ i, i0 + 1 ≤ i → i < i0 + 1 + m → dists.get? i = some (d i) :=
      fun i h1 h2 => hd1 i (by omega) (by omega)
    have hd2' : ∀ i, i0 + 1 ≤ i → i < i0 + 1 + m →
        dists.get? (i + 1) = some (d (i + 1)) :=
      fun i h1 h2 => hd2 i (by omega) (by omega)
    have hq' : ∀ i, i0 + 1 ≤ i → i < i0 + 1 + m →
        connection_probability cdf (d i).prev_props (d (i + 1)).prev_props
          = some (q i) :=
      fun i h1 h2 => hq i (by omega) (by omega)
    have hdi := hd1 i0 (le_refl _) (by omega)
    have hdj := hd2 i0 (le_refl _) (by omega)
    have hqi := hq i0 (le_refl _) (by omega)
    rw [List.range'_succ]
    simp only [List.map_cons, List.prod_cons, successAux, hdi, hdj, hqi]
    by_cases hle : q i0 ≤ least
    · rw [if_pos hle]
      rcases ih (i0 + 1) (proba * q i0) (q i0)
          (some (c (i0 + 1), c i0, (d i0).prev_props)) hd1' hd2' hq' with
        ⟨hall, heq⟩ | ⟨k, hk1, hk2, hk3, hk4, hk5, heq⟩
      · right
        refine ⟨i0, le_refl _, by omega, hle, ?_, ?_, ?_⟩
        · intro i h1 h2
          rcases eq_or_lt_of_le h1 with h | h
          · rw [← h]
          · exact le_of_lt (hall i (by omega) (by omega))
        · intro j hj1 hj2
          exact hall j (by omega) (by omega)
        · rw [heq]
          simp [mul_assoc]
      · right
        refine ⟨k, by omega, by omega, le_trans hk3 hle, ?_, ?_, ?_⟩
        · intro i h1 h2
          rcases eq_or_lt_of_le h1 with h | h
          · rw [← h]
            exact hk3
          · exact hk4 i (by omega) (by omega)
        · intro j hj1 hj2
          exact hk5 j (by omega) (by omega)
        · rw [heq, mul_assoc]
    · rw [if_neg hle]
      rcases ih (i0 + 1) (proba * q i0) least edge hd1' hd2' hq' with
        ⟨hall, heq⟩ | ⟨k, hk1, hk2, hk3, hk4, hk5, heq⟩
      · left
        refine ⟨?_, ?_⟩
        · intro i h1 h2
          rcases eq_or_lt_of_le h1 with h | h
          · rw [← h]
            exact lt_of_not_ge hle
          · exact hall i (by omega) (by omega)
        · rw [heq]
          cases edge with
          | none => rfl
          | some e => simp [mul_assoc]
      · right
        refine ⟨k, by omega, by omega, hk3, ?_, ?_, ?_⟩
        · intro i h1 h2
          rcases eq_or_lt_of_le h1 with h | h
          · rw [← h]
            exact le_of_lt (lt_of_le_of_lt hk3 (lt_of_not_ge hle))
          · exact hk4 i (by omega) (by omega)
        · intro j hj1 hj2
          exact hk5 j (by omega) (by omega)
        · rw [heq, mul_assoc]

/-- C4: on a route of `N ≥ 2` stops with matching label list,
`success_proba` returns the product of the per-pair connection
probabilities `q_i = connection_probability(distances[i].prev_props,
distances[i+1].prev_props)` together with the triple
`(connections[k+1], connections[k], distances[k].prev_props)` of the pair
achieving the minimum `q_i`, ties broken in favour of the last pair
(`q k` is a minimum and every later pair is strictly larger).  The
hypothesis `q i ≤ 1` holds for the program's probabilities (the CDF of a
distribution never exceeds `1` and the fall-through value is exactly `1`). -/
theorem C4_spec (cdf : Cdf) (r : Route) (n : Nat) (hn : 2 ≤ n)
    (hc : r.connections.length = n) (hdl : r.distances.length = n)
    (q : Nat → Rat)
    (hq : ∀ i, i < n - 1 →
      connection_probability cdf
        (r.distances.getD i TimeDistance.dummy).prev_props
        (r.distances.getD (i + 1) TimeDistance.dummy).prev_props = some (q i))
    (hle : ∀ i, i < n - 1 → q i ≤ 1) :
    ∃ k, k < n - 1 ∧
      r.success_proba cdf
        = Except.ok (((List.range (n - 1)).map q).prod,
            (r.connections.getD (k + 1) "", r.connections.getD k "",
             (r.distances.getD k TimeDistance.dummy).prev_props)) ∧
      (∀ i, i < n - 1 → q k ≤ q i) ∧
      (∀ j, k < j → j < n - 1 → q k < q j) := by
  have hne : r.connections.isEmpty = false := by
    cases hcn : r.connections with
    | nil => rw [hcn] at hc; simp at hc; omega
    | cons a t => rfl
  have hd1 : ∀ i, 0 ≤ i → i < 0 + (n - 1) → r.distances.get? i
      = some (r.distances.getD i TimeDistance.dummy) :=
    fun i _ h2 => get?_eq_some_getD _ _ _ (by omega)
  have hd2 : ∀ i, 0 ≤ i → i < 0 + (n - 1) → r.distances.get? (i + 1)
      = some (r.distances.getD (i + 1) TimeDistance.dummy) :=
    fun i _ h2 => get?_eq_some_getD _ _ _ (by omega)
  have hq' : ∀ i, 0 ≤ i → i < 0 + (n - 1) → connection_probability cdf
      (r.distances.getD i TimeDistance.dummy).prev_props
      (r.distances.getD (i + 1) TimeDistance.dummy).prev_props = some (q i) :=
    fun i _ h2 => hq i (by omega)
  rcases successAux_spec cdf r.distances (fun k => r.connections.getD k "")
      (fun k => r.distances.getD k TimeDistance.dummy) q (n - 1) 0 1 1 none
      hd1 hd2 hq' with ⟨hall, _⟩ | ⟨k, _, hk2, _, hk4, hk5, heq⟩
  · exact absurd (hall 0 (le_refl _) (by omega)) (not_lt.mpr (hle 0 (by omega)))
  · refine ⟨k, by omega, ?_, fun i hi => hk4 i (by omega) (by omega),
      fun j hj1 hj2 => hk5 j hj1 (by omega)⟩
    unfold Route.success_proba
    rw [hne]
    simp only [Bool.false_eq_true, if_false]
    rw [enumPairs_eq, hc, List.range_eq_range']
    simpa using heq

/-- C4 witness: on a three-stop route whose two transfer probabilities tie
(`cdfOne` makes both `q_i = 1`), the product is returned and the weakest
pair is the last one. -/
theorem C4_witness :
    ∃ k, k < 2 ∧
      rW.success_proba cdfOne
        = Except.ok (((List.range 2).map (fun _ => (1 : Rat))).prod,
            (rW.connections.getD (k + 1) "", rW.connections.getD k "",
             (rW.distances.getD k TimeDistance.dummy).prev_props)) ∧
      (∀ i, i < 2 → (1 : Rat) ≤ 1) ∧
      (∀ j, k < j → j < 2 → (1 : Rat) < 1) :=
  C4_spec cdfOne rW 3 (by omega) rfl rfl (fun _ => 1)
    (fun i hi => by interval_cases i <;> rfl)
    (fun i _ => le_refl 1)

end Wybe
